import Mathlib

/-!
Verification of the ashlar schema-versioning and query engine.

The definitions below are a shallow embedding of the code in
src/ashlar/views.py (RecordViewSet, RecordTypeViewSet, SchemaViewSet,
RecordSchemaViewSet, BoundaryViewSet) together with the data-model facts
recorded in src/ashlar/migrations/0007_auto_20150427_2114.py
(RecordSchema.next_version is a nullable OneToOneField to RecordSchema,
with inverse previous_version).  Database rows become Lean structures,
querysets become lists, and Django ORM calls become list operations.
Machinery of the repository that is not in the source tree (the model
save path that links the old head to a freshly created schema, the
storage engine raising IntegrityError on a duplicate Boundary label,
psycopg2 mogrify) is modelled from the specification and marked as such
in its doc comment.
-/

namespace Ashlar

/-- A RecordSchema row: id, owning record type, version number, optional
link to the superseding schema (null while this row is the current head,
per migration 0007 a nullable OneToOneField), and the schema document. -/
structure RecordSchema where
  id : Nat
  record_type : Nat
  version : Nat
  next_version : Option Nat
  schema : String
deriving Repr, DecidableEq

/-- The table of RecordSchema rows plus the id the storage engine will
assign to the next inserted row. -/
structure SchemaStore where
  schemas : List RecordSchema
  nextId : Nat
deriving Repr, DecidableEq

def emptyStore : SchemaStore := { schemas := [], nextId := 0 }

/-- Errors Django QuerySet.get can raise: DoesNotExist when no row
matches, MultipleObjectsReturned when more than one does. -/
inductive GetError where
  | doesNotExist
  | multipleObjectsReturned
deriving Repr, DecidableEq

/-- The row predicate of the view code
RecordSchema.objects.get with record_type and next_version=None. -/
def isHeadFor (rt : Nat) (s : RecordSchema) : Bool :=
  s.record_type == rt && s.next_version == none

/-- RecordSchema.objects.get with record_type and next_version=None:
returns the unique matching row, or DoesNotExist / MultipleObjectsReturned. -/
def getHead (st : SchemaStore) (rt : Nat) : Except GetError RecordSchema :=
  match st.schemas.filter (isHeadFor rt) with
  | [] => .error .doesNotExist
  | [s] => .ok s
  | _ :: _ :: _ => .error .multipleObjectsReturned

/-- The version computation of RecordSchemaViewSet.get_serializer:
head.version + 1 when a current head exists, 1 when the lookup raises
DoesNotExist; MultipleObjectsReturned is not caught and propagates. -/
def computeVersion (st : SchemaStore) (rt : Nat) : Except GetError Nat :=
  match getHead st rt with
  | .ok head => .ok (head.version + 1)
  | .error .doesNotExist => .ok 1
  | .error .multipleObjectsReturned => .error .multipleObjectsReturned

/-- One row of the head-linking update: the row that was the current head
for the record type gets its next_version set to the new row id. -/
def linkHead (rt : Nat) (newId : Nat) (s : RecordSchema) : RecordSchema :=
  if isHeadFor rt s then { s with next_version := some newId } else s

/-- Modelled from the spec: the save path for a newly created RecordSchema
(serializer and model code are outside the source tree).  The new row is
stored with next_version null, and the previous head for the record type
has its next_version set to the new row, so the new row becomes the head. -/
def saveNewSchema (st : SchemaStore) (rt : Nat) (version : Nat) (doc : String) :
    RecordSchema × SchemaStore :=
  let newSchema : RecordSchema :=
    { id := st.nextId, record_type := rt, version := version, next_version := none,
      schema := doc }
  let linked := st.schemas.map (linkHead rt newSchema.id)
  (newSchema, { schemas := linked ++ [newSchema], nextId := st.nextId + 1 })

/-- createSchema as the repository performs it: version computed exactly as
RecordSchemaViewSet.get_serializer does, then the new row saved and linked. -/
def createSchema (st : SchemaStore) (rt : Nat) (doc : String) :
    Except GetError (RecordSchema × SchemaStore) :=
  match computeVersion st rt with
  | .ok version => .ok (saveNewSchema st rt version doc)
  | .error e => .error e

/-- Iterate createSchema n times for one record type, starting from the
empty store.  A failing creation leaves the store unchanged. -/
def createN (rt : Nat) (doc : String) : Nat → SchemaStore
  | 0 => emptyStore
  | n + 1 =>
    match createSchema (createN rt doc n) rt doc with
    | .ok (_, st) => st
    | .error _ => createN rt doc n

/-- Closed form for the store after n sequential creations: rows with ids
0..n-1, versions 1..n, each linked to the next and the last one the head. -/
def chainForm (rt : Nat) (doc : String) (n : Nat) : List RecordSchema :=
  (List.range n).map fun i =>
    { id := i, record_type := rt, version := i + 1,
      next_version := if i + 1 = n then none else some (i + 1), schema := doc }

/-- The fully linked prefix of a chain: rows 0..n-1 all pointing at their
successor. -/
def linkedChain (rt : Nat) (doc : String) (n : Nat) : List RecordSchema :=
  (List.range n).map fun i =>
    { id := i, record_type := rt, version := i + 1, next_version := some (i + 1),
      schema := doc }
/-- At most one RecordSchema per record type has next_version null. -/
def headUnique (st : SchemaStore) : Prop :=
  ∀ rt, (st.schemas.filter (isHeadFor rt)).length ≤ 1

/-- The operations SchemaViewSet exposes: only the List, Create and
Retrieve mixins are included, so these three are the whole interface. -/
inductive SchemaOp where
  | list
  | retrieve (id : Nat)
  | create (rt : Nat) (doc : String)
deriving Repr, DecidableEq

/-- Effect of one interface operation on the stored table.  List and
retrieve are reads; create goes through createSchema, and a failing
create writes nothing. -/
def applyOp (st : SchemaStore) : SchemaOp → SchemaStore
  | .list => st
  | .retrieve _ => st
  | .create rt doc =>
    match createSchema st rt doc with
    | .ok (_, st') => st'
    | .error _ => st

def applyOps (st : SchemaStore) (ops : List SchemaOp) : SchemaStore :=
  ops.foldl applyOp st

/-! ### RecordSchemaViewSet.get_serializer -/

/-- The submitted data of a schema-create request: an optional
record_type reference, an optional client-supplied version, and the
schema document. -/
structure SchemaPayload where
  record_type : Option Nat
  version : Option Nat
  schema : String
deriving Repr, DecidableEq

/-- The keyword arguments handed to the serializer; only the data
argument matters to the override. -/
structure SerializerKwargs where
  data : Option SchemaPayload
deriving Repr, DecidableEq

/-- RecordSchemaViewSet.get_serializer: on a create action whose submitted
data carries a record_type, the version field of the data is overwritten
with the computed next version before the serializer is constructed; in
every other case the arguments pass through unchanged.  The
MultipleObjectsReturned of the head lookup is not caught and propagates. -/
def get_serializer (st : SchemaStore) (action : String)
    (kwargs : SerializerKwargs) : Except GetError SerializerKwargs :=
  if action == "create" then
    match kwargs.data with
    | some d =>
      match d.record_type with
      | some rt =>
        match computeVersion st rt with
        | .ok v => .ok { data := some { d with version := some v } }
        | .error e => .error e
      | none => .ok kwargs
    | none => .ok kwargs
  else .ok kwargs

/-! ### Records and the toddow aggregation -/

/-- A stored Record row, reduced to the fields the claims touch: the
schema row it is bound to and its occurrence timestamp, in seconds from
an epoch that falls on a Sunday midnight. -/
structure Record where
  id : Nat
  schemaId : Nat
  occurred_from : Nat
deriving Repr, DecidableEq

/-- Hour of day 0..23 extracted from occurred_from. -/
def hourOf (t : Nat) : Nat := t / 3600 % 24

/-- Day of week extracted from occurred_from, in the convention of the
occurred_from__week_day lookup of the database backend: 1 = Sunday up to
7 = Saturday, the epoch being a Sunday. -/
def weekDayOf (t : Nat) : Nat := t / 86400 % 7 + 1

/-- The dow Case expression of RecordViewSet.toddow: one When branch per
x in 1..7, yielding x when week_day = x, and NULL when no branch fires. -/
def dowCase (t : Nat) : Option Nat :=
  (List.range' 1 7).findSome? fun x => if weekDayOf t = x then some x else none

/-- The tod Case expression of RecordViewSet.toddow: one When branch per
x in 0..23, yielding x when hour = x, and NULL when no branch fires. -/
def todCase (t : Nat) : Option Nat :=
  (List.range 24).findSome? fun x => if hourOf t = x then some x else none

/-- The annotation pair (tod, dow) attached to a record row. -/
def toddowKey (r : Record) : Option Nat × Option Nat :=
  (todCase r.occurred_from, dowCase r.occurred_from)

/-- One group of the toddow response. -/
structure ToddowRow where
  tod : Option Nat
  dow : Option Nat
  count : Nat
deriving Repr, DecidableEq

/-- The ORDER BY tod, dow ordering of the grouped rows: ascending on tod
then on dow, with a NULL annotation sorting last as the database does
(24 and 8 lie beyond every non-null tod and dow value). -/
def keyLe (a b : Option Nat × Option Nat) : Prop :=
  a.1.getD 24 < b.1.getD 24 ∨ (a.1.getD 24 = b.1.getD 24 ∧ a.2.getD 8 ≤ b.2.getD 8)

instance : DecidableRel keyLe := fun a b => by
  unfold keyLe
  exact inferInstance

instance : IsTotal (Option Nat × Option Nat) keyLe :=
  ⟨by intro a b; unfold keyLe; omega⟩

instance : IsTrans (Option Nat × Option Nat) keyLe :=
  ⟨by intro a b c; unfold keyLe; omega⟩

/-- The filter backends applied in order to the queryset, as the loop at
the top of toddow (and of list) does. -/
def applyRecordFilters (backends : List (Record → Bool)) (qryset : List Record) :
    List Record :=
  backends.foldl (fun q b => q.filter b) qryset

/-- The distinct (tod, dow) annotation pairs of the filtered queryset,
ordered by tod then dow: the grouping keys of values + order_by. -/
def toddowGroups (backends : List (Record → Bool)) (qryset : List Record) :
    List (Option Nat × Option Nat) :=
  List.insertionSort keyLe ((applyRecordFilters backends qryset).map toddowKey).dedup

/-- The Count aggregation of one group: the number of rows of the group
whose tod annotation is non-null, as Count of the tod column is. -/
def toddowCount (backends : List (Record → Bool)) (qryset : List Record)
    (k : Option Nat × Option Nat) : Nat :=
  (((applyRecordFilters backends qryset).map toddowKey).filter
    (fun k2 => k2 == k)).countP (fun k2 => k2.1.isSome)

/-- RecordViewSet.toddow: apply the configured filter backends to the
queryset, annotate every remaining row with its (tod, dow) Case values,
group by the pair, order by tod then dow, and annotate each group with
Count of its tod values. -/
def toddow (backends : List (Record → Bool)) (qryset : List Record) :
    List ToddowRow :=
  (toddowGroups backends qryset).map fun k =>
    { tod := k.1, dow := k.2, count := toddowCount backends qryset k }

/-! ### RecordTypeViewSet.recent_counts -/

/-- A RecordType row together with the ids of its schema rows, in the
role of the record_type.schemas related manager. -/
structure RecordTypeRow where
  id : Nat
  schemas : List Nat
deriving Repr, DecidableEq

/-- The response dictionary of recent_counts. -/
structure Counts where
  month : Nat
  quarter : Nat
  year : Nat
deriving Repr, DecidableEq

/-- schema.record_set filtered by occurred_from ≤ now and
occurred_from ≥ now - days, then counted.  Timestamps are seconds, the
window length is days · 86400 seconds, and both bounds are inclusive. -/
def recordSetCount (records : List Record) (sid : Nat) (now days : Int) : Nat :=
  (records.filter fun r =>
    r.schemaId == sid && decide ((r.occurred_from : Int) ≤ now)
      && decide (now - days * 86400 ≤ (r.occurred_from : Int))).length

/-- The body of the nested loop of recent_counts: one schema version adds
its windowed counts to the running totals. -/
def recentCountsBody (records : List Record) (now : Int) (counts : Counts)
    (sid : Nat) : Counts :=
  { month := counts.month + recordSetCount records sid now 30,
    quarter := counts.quarter + recordSetCount records sid now 90,
    year := counts.year + recordSetCount records sid now 365 }

/-- RecordTypeViewSet.recent_counts after the record type has been
fetched: totals start at zero and every schema version of the type
contributes its windowed record counts. -/
def recentCounts (rt : RecordTypeRow) (records : List Record) (now : Int) :
    Counts :=
  rt.schemas.foldl (recentCountsBody records now) { month := 0, quarter := 0, year := 0 }

/-- RecordType.objects.get with pk: the unique row with that id, or
DoesNotExist / MultipleObjectsReturned. -/
def recordTypeGet (rts : List RecordTypeRow) (pk : Nat) :
    Except GetError RecordTypeRow :=
  match rts.filter (fun rt => rt.id == pk) with
  | [] => .error .doesNotExist
  | [rt] => .ok rt
  | _ :: _ :: _ => .error .multipleObjectsReturned

/-- The whole recent_counts operation: fetch the record type by pk, then
aggregate; a failing lookup propagates its typed error uncaught. -/
def recentCountsView (rts : List RecordTypeRow) (records : List Record)
    (pk : Nat) (now : Int) : Except GetError Counts :=
  match recordTypeGet rts pk with
  | .ok rt => .ok (recentCounts rt records now)
  | .error e => .error e

/-! ### BoundaryViewSet.create -/

structure Boundary where
  id : Nat
  label : String
deriving Repr, DecidableEq

structure BoundaryStore where
  boundaries : List Boundary
  nextId : Nat
deriving Repr, DecidableEq

/-- What BoundaryViewSet.create answers: either the created row with a
success status, or an error body with its status code. -/
inductive BoundaryResponse where
  | created (b : Boundary) (statusCode : Nat)
  | failure (message : String) (statusCode : Nat)
deriving Repr, DecidableEq

/-- Modelled from the spec: the storage engine enforces the uniqueness
constraint on Boundary labels (models and database are outside the
source tree); inserting a duplicate label raises IntegrityError and
writes nothing, otherwise the row is stored. -/
def insertBoundary (st : BoundaryStore) (label : String) :
    Except Unit (Boundary × BoundaryStore) :=
  if st.boundaries.any (fun b => b.label == label) then .error ()
  else
    .ok ({ id := st.nextId, label := label },
      { boundaries := st.boundaries ++ [{ id := st.nextId, label := label }],
        nextId := st.nextId + 1 })

/-- BoundaryViewSet.create: delegate to the normal create and turn an
IntegrityError into a 409 response with a distinguishable error body. -/
def boundaryCreate (st : BoundaryStore) (label : String) :
    BoundaryResponse × BoundaryStore :=
  match insertBoundary st label with
  | .ok (b, st') => (.created b 201, st')
  | .error _ => (.failure "uniqueness constraint violation" 409, st)

/-! ### RecordViewSet.list and the raw-query diagnostic flag -/

structure HttpRequest where
  params : List (String × String)
deriving Repr, DecidableEq

def hasParam (req : HttpRequest) (k : String) : Bool :=
  req.params.any fun p => p.1 == k

/-- A composed query as the ORM carries it: the SQL text with %s
placeholders and the parameter values, as produced by sql_with_params. -/
structure RecordQuery where
  sql : String
  params : List String
deriving Repr, DecidableEq

/-- Modelled from the spec: psycopg2 escaping of a string literal; every
quote in the value is doubled so the substituted text stays one literal. -/
def escapeLiteral (s : String) : String :=
  "'" ++ String.mk (s.data.foldr
    (fun c acc => if c = '\'' then '\'' :: '\'' :: acc else c :: acc) []) ++ "'"

/-- Modelled from the spec: cursor.mogrify replaces each %s placeholder
with the corresponding literal parameter value, safely escaped; it builds
a string and executes nothing. -/
def mogrifyChars : List Char → List String → List Char
  | [], _ => []
  | '%' :: 's' :: rest, p :: ps => (escapeLiteral p).data ++ mogrifyChars rest ps
  | c :: rest, ps => c :: mogrifyChars rest ps

def mogrify (q : RecordQuery) : String :=
  String.mk (mogrifyChars q.sql.data q.params)

/-- What RecordViewSet.list answers: a page of records, or the composed
query text when the diagnostic flag is set. -/
inductive RecordListResponse where
  | results (records : List Record)
  | queryText (query : String)
deriving Repr, DecidableEq

/-- The filtered query: every configured filter backend applied in order
to the base queryset, as both branches of list do. -/
def composeQuery (backends : List (HttpRequest → RecordQuery → RecordQuery))
    (req : HttpRequest) (baseQuery : RecordQuery) : RecordQuery :=
  backends.foldl (fun acc b => b req acc) baseQuery

/-- RecordViewSet.list: when the query parameter is present, answer the
mogrified text of the composed query; otherwise run the query through the
storage collaborator and answer its rows.  The stored table is returned
unchanged in both branches: the operation writes nothing. -/
def recordList (backends : List (HttpRequest → RecordQuery → RecordQuery))
    (execute : RecordQuery → List Record) (req : HttpRequest)
    (baseQuery : RecordQuery) (stored : List Record) :
    RecordListResponse × List Record :=
  if hasParam req "query" then
    (.queryText (mogrify (composeQuery backends req baseQuery)), stored)
  else
    (.results (execute (composeQuery backends req baseQuery)), stored)

/-! ### The unsynchronized concurrent createSchema interleaving -/

/-- Two createSchema calls for the same record type interleaved as
read, read, write, write: each call runs the version computation of
get_serializer against the shared table, then each save runs; nothing in
the code serializes the two calls, so this schedule is reachable. -/
def interleavedCreate (st : SchemaStore) (rt : Nat) (doc1 doc2 : String) :
    Except GetError (Nat × Nat × SchemaStore) :=
  match computeVersion st rt with
  | .error e => .error e
  | .ok v1 =>
    match computeVersion st rt with
    | .error e => .error e
    | .ok v2 =>
      let st1 := (saveNewSchema st rt v1 doc1).2
      let st2 := (saveNewSchema st1 rt v2 doc2).2
      .ok (v1, v2, st2)

/-- A one-schema store for record type 3: the state in which the race is
exercised. -/
def raceStore : SchemaStore :=
  { schemas := [{ id := 0, record_type := 3, version := 1, next_version := none,
                  schema := "a" }],
    nextId := 1 }

/-! ### Lemmas -/

theorem isHeadFor_chainForm (rt : Nat) (doc : String) (n i : Nat) :
    isHeadFor rt
      { id := i, record_type := rt, version := i + 1,
        next_version := if i + 1 = n then none else some (i + 1), schema := doc }
      = (i + 1 == n) := by
  by_cases h : i + 1 = n <;> simp [isHeadFor, h]

theorem filter_chainForm (rt : Nat) (doc : String) (k : Nat) :
    (chainForm rt doc (k + 1)).filter (isHeadFor rt)
      = [{ id := k, record_type := rt, version := k + 1, next_version := none,
           schema := doc }] := by
  simp only [chainForm, List.range_succ, List.map_append, List.filter_append,
    List.map_cons, List.map_nil, List.filter_cons]
  rw [List.filter_eq_nil_iff.mpr]
  · simp [isHeadFor]
  · intro s hs
    rcases List.mem_map.mp hs with ⟨i, hi, rfl⟩
    have hilt : i < k := List.mem_range.mp hi
    have hne : i + 1 ≠ k + 1 := by omega
    simp only [if_neg hne]
    simp [isHeadFor]

theorem chainForm_succ (rt : Nat) (doc : String) (n : Nat) :
    chainForm rt doc (n + 1)
      = linkedChain rt doc n
        ++ [{ id := n, record_type := rt, version := n + 1, next_version := none,
              schema := doc }] := by
  simp only [chainForm, linkedChain, List.range_succ, List.map_append,
    List.map_cons, List.map_nil]
  congr 1
  · apply List.map_congr_left
    intro i hi
    have hilt : i < n := List.mem_range.mp hi
    have hne : i + 1 ≠ n + 1 := by omega
    simp [hne]

theorem link_chainForm (rt : Nat) (doc : String) (n : Nat) :
    (chainForm rt doc n).map (linkHead rt n) = linkedChain rt doc n := by
  simp only [chainForm, linkedChain, List.map_map]
  apply List.map_congr_left
  intro i hi
  have hilt : i < n := List.mem_range.mp hi
  by_cases hik : i + 1 = n
  · simp only [Function.comp_apply, linkHead, isHeadFor_chainForm]
    simp [hik]
  · simp only [Function.comp_apply, linkHead, isHeadFor_chainForm]
    have hb : (i + 1 == n) = false := by simp [hik]
    simp [hb, hik]

theorem createN_eq (rt : Nat) (doc : String) :
    ∀ n, createN rt doc n = { schemas := chainForm rt doc n, nextId := n } := by
  intro n
  induction n with
  | zero => rfl
  | succ m ih =>
    simp only [createN, ih]
    cases m with
    | zero =>
      simp [createSchema, computeVersion, getHead, chainForm, saveNewSchema,
        linkHead, emptyStore, List.range_succ]
    | succ k =>
      simp only [createSchema, computeVersion, getHead, filter_chainForm,
        saveNewSchema]
      have hl := link_chainForm rt doc (k + 1)
      rw [hl, chainForm_succ rt doc (k + 1)]

/-! ### Head uniqueness and the schema-store interface -/


theorem createSchema_ok_shape (st : SchemaStore) (rt : Nat) (doc : String)
    (s : RecordSchema) (st' : SchemaStore)
    (h : createSchema st rt doc = .ok (s, st')) :
    ∃ v, computeVersion st rt = .ok v ∧
      s = { id := st.nextId, record_type := rt, version := v, next_version := none,
            schema := doc } ∧
      st' = { schemas := st.schemas.map (linkHead rt st.nextId)
                ++ [{ id := st.nextId, record_type := rt, version := v,
                      next_version := none, schema := doc }],
              nextId := st.nextId + 1 } := by
  cases hcv : computeVersion st rt with
  | error e => simp [createSchema, hcv] at h
  | ok v =>
    refine ⟨v, rfl, ?_⟩
    simp only [createSchema, hcv, saveNewSchema, Except.ok.injEq, Prod.mk.injEq] at h
    exact ⟨h.1.symm, h.2.symm⟩

theorem linkHead_of_head (rt newId : Nat) (s : RecordSchema)
    (h : isHeadFor rt s = true) :
    linkHead rt newId s = { s with next_version := some newId } := by
  simp [linkHead, h]

theorem linkHead_of_not_head (rt newId : Nat) (s : RecordSchema)
    (h : isHeadFor rt s = false) : linkHead rt newId s = s := by
  simp [linkHead, h]

theorem isHeadFor_linkHead_ne (rt rt2 newId : Nat) (s : RecordSchema)
    (h : rt2 ≠ rt) : isHeadFor rt2 (linkHead rt newId s) = isHeadFor rt2 s := by
  by_cases hs : isHeadFor rt s = true
  · have h1 : s.record_type = rt ∧ s.next_version = none := by
      simpa [isHeadFor] using hs
    rw [linkHead_of_head rt newId s hs]
    have hne : (rt == rt2) = false := by simp [Ne.symm h]
    simp [isHeadFor, h1.1, h1.2, hne]
  · rw [linkHead_of_not_head rt newId s (by simpa using hs)]

theorem filter_linkHead_self (rt newId : Nat) (l : List RecordSchema) :
    (l.map (linkHead rt newId)).filter (isHeadFor rt) = [] := by
  rw [List.filter_eq_nil_iff]
  intro s hs
  rcases List.mem_map.mp hs with ⟨a, _, rfl⟩
  by_cases ha : isHeadFor rt a = true
  · rw [linkHead_of_head rt newId a ha]
    simp [isHeadFor]
  · rw [linkHead_of_not_head rt newId a (by simpa using ha)]
    simpa using ha

theorem filter_linkHead_ne (rt rt2 newId : Nat) (h : rt2 ≠ rt)
    (l : List RecordSchema) :
    (l.map (linkHead rt newId)).filter (isHeadFor rt2)
      = (l.filter (isHeadFor rt2)).map (linkHead rt newId) := by
  induction l with
  | nil => rfl
  | cons a l ih =>
    simp only [List.map_cons, List.filter_cons, isHeadFor_linkHead_ne rt rt2 newId a h]
    by_cases ha : isHeadFor rt2 a
    · simp [ha, ih]
    · simp [ha, ih]

/-- createSchema preserves head uniqueness: after a successful creation the
new row is the sole head for its record type and other types are untouched. -/
theorem createSchema_preserves_headUnique (st : SchemaStore) (rt : Nat)
    (doc : String) (s : RecordSchema) (st' : SchemaStore)
    (hu : headUnique st) (h : createSchema st rt doc = .ok (s, st')) :
    headUnique st' := by
  rcases createSchema_ok_shape st rt doc s st' h with ⟨v, -, -, hst⟩
  subst hst
  intro rt2
  simp only [List.filter_append]
  by_cases hrt : rt2 = rt
  · subst hrt
    rw [filter_linkHead_self]
    simp [isHeadFor]
  · rw [filter_linkHead_ne rt rt2 st.nextId hrt]
    have hne : (rt == rt2) = false := by simp [Ne.symm hrt]
    simp only [List.filter_cons, List.filter_nil, isHeadFor, hne]
    simpa using hu rt2

theorem applyOp_preserves_headUnique (st : SchemaStore) (op : SchemaOp)
    (hu : headUnique st) : headUnique (applyOp st op) := by
  cases op with
  | list => exact hu
  | retrieve i => exact hu
  | create rt doc =>
    simp only [applyOp]
    cases h : createSchema st rt doc with
    | ok p =>
      exact createSchema_preserves_headUnique st rt doc p.1 p.2 hu
        (by rw [h])
    | error e => exact hu

theorem applyOps_preserves_headUnique (ops : List SchemaOp) :
    ∀ st : SchemaStore, headUnique st → headUnique (applyOps st ops) := by
  induction ops with
  | nil => intro st hu; exact hu
  | cons op ops ih =>
    intro st hu
    exact ih (applyOp st op) (applyOp_preserves_headUnique st op hu)

theorem emptyStore_headUnique : headUnique emptyStore := by
  intro rt
  simp [emptyStore]

theorem getHead_ok_filter (st : SchemaStore) (rt : Nat) (h : RecordSchema)
    (hg : getHead st rt = .ok h) :
    st.schemas.filter (isHeadFor rt) = [h] := by
  unfold getHead at hg
  rcases hfil : st.schemas.filter (isHeadFor rt) with - | ⟨a, - | ⟨b, l⟩⟩ <;>
    rw [hfil] at hg <;> simp at hg
  rw [hg]

theorem linkHead_id (rt newId : Nat) (s : RecordSchema) :
    (linkHead rt newId s).id = s.id := by
  unfold linkHead; split <;> rfl

theorem linkHead_record_type (rt newId : Nat) (s : RecordSchema) :
    (linkHead rt newId s).record_type = s.record_type := by
  unfold linkHead; split <;> rfl

theorem linkHead_version (rt newId : Nat) (s : RecordSchema) :
    (linkHead rt newId s).version = s.version := by
  unfold linkHead; split <;> rfl

theorem linkHead_schema (rt newId : Nat) (s : RecordSchema) :
    (linkHead rt newId s).schema = s.schema := by
  unfold linkHead; split <;> rfl

/-- One interface operation never changes or removes an existing row apart
from its next_version link. -/
theorem applyOp_preserves_row (st : SchemaStore) (op : SchemaOp)
    (s : RecordSchema) (hs : s ∈ st.schemas) :
    ∃ s', s' ∈ (applyOp st op).schemas ∧ s'.id = s.id ∧
      s'.record_type = s.record_type ∧ s'.version = s.version ∧
      s'.schema = s.schema := by
  cases op with
  | list => exact ⟨s, hs, rfl, rfl, rfl, rfl⟩
  | retrieve i => exact ⟨s, hs, rfl, rfl, rfl, rfl⟩
  | create rt doc =>
    cases h : createSchema st rt doc with
    | error e =>
      refine ⟨s, ?_, rfl, rfl, rfl, rfl⟩
      simp [applyOp, h, hs]
    | ok p =>
      obtain ⟨a, st'⟩ := p
      rcases createSchema_ok_shape st rt doc a st' h with ⟨v, -, -, hst⟩
      refine ⟨linkHead rt st.nextId s, ?_, linkHead_id rt st.nextId s,
        linkHead_record_type rt st.nextId s, linkHead_version rt st.nextId s,
        linkHead_schema rt st.nextId s⟩
      simp only [applyOp, h, hst, List.mem_append]
      exact Or.inl (List.mem_map_of_mem _ hs)

theorem applyOps_preserves_row (ops : List SchemaOp) :
    ∀ (st : SchemaStore) (s : RecordSchema), s ∈ st.schemas →
      ∃ s', s' ∈ (applyOps st ops).schemas ∧ s'.id = s.id ∧
        s'.record_type = s.record_type ∧ s'.version = s.version ∧
        s'.schema = s.schema := by
  induction ops with
  | nil => exact fun st s hs => ⟨s, hs, rfl, rfl, rfl, rfl⟩
  | cons op ops ih =>
    intro st s hs
    rcases applyOp_preserves_row st op s hs with ⟨s1, hs1, h1, h2, h3, h4⟩
    rcases ih (applyOp st op) s1 hs1 with ⟨s2, hs2, g1, g2, g3, g4⟩
    exact ⟨s2, hs2, g1.trans h1, g2.trans h2, g3.trans h3, g4.trans h4⟩

theorem hourOf_lt (t : Nat) : hourOf t < 24 :=
  Nat.mod_lt _ (by omega)

theorem weekDayOf_ge_one (t : Nat) : 1 ≤ weekDayOf t :=
  Nat.succ_le_succ (Nat.zero_le _)

theorem weekDayOf_le_seven (t : Nat) : weekDayOf t ≤ 7 := by
  unfold weekDayOf
  have := Nat.mod_lt (t / 86400) (show 0 < 7 by omega)
  omega

theorem findSome_if_self (v : Nat) :
    ∀ l : List Nat, v ∈ l →
      (l.findSome? fun x => if v = x then some x else none) = some v
  | [], hl => by cases hl
  | a :: l, hl => by
    rw [List.findSome?_cons]
    by_cases hv : v = a
    · subst hv; simp
    · simp only [if_neg hv]
      exact findSome_if_self v l
        (by rcases List.mem_cons.mp hl with h1 | h2
            exacts [absurd h1 hv, h2])

theorem todCase_eq (t : Nat) : todCase t = some (hourOf t) :=
  findSome_if_self (hourOf t) (List.range 24) (List.mem_range.mpr (hourOf_lt t))

theorem dowCase_eq (t : Nat) : dowCase t = some (weekDayOf t) :=
  findSome_if_self (weekDayOf t) (List.range' 1 7)
    (List.mem_range'_1.mpr
      ⟨weekDayOf_ge_one t, by have := weekDayOf_le_seven t; omega⟩)

theorem toddowKey_eq (r : Record) :
    toddowKey r
      = (some (hourOf r.occurred_from), some (weekDayOf r.occurred_from)) := by
  simp [toddowKey, todCase_eq, dowCase_eq]

theorem toddow_map_key (backends : List (Record → Bool)) (qryset : List Record) :
    (toddow backends qryset).map (fun g => (g.tod, g.dow))
      = toddowGroups backends qryset := by
  unfold toddow
  rw [List.map_map]
  exact (List.map_congr_left fun k _ => rfl).trans (List.map_id _)

theorem toddowCount_count (backends : List (Record → Bool))
    (qryset : List Record) (k : Option Nat × Option Nat)
    (hk : k.1.isSome = true) :
    toddowCount backends qryset k
      = ((applyRecordFilters backends qryset).map toddowKey).count k := by
  unfold toddowCount
  rw [List.filter_beq, List.countP_replicate, if_pos hk]

theorem count_map_toddowKey (l : List Record) (k : Option Nat × Option Nat) :
    (l.map toddowKey).count k = l.countP (fun r => toddowKey r == k) := by
  rw [List.count_eq_countP, List.countP_map]
  rfl

theorem recordSetCount_eq (records : List Record) (sid : Nat) (now days : Int) :
    recordSetCount records sid now days
      = records.countP fun r =>
          decide (r.schemaId = sid ∧ now - days * 86400 ≤ (r.occurred_from : Int)
            ∧ (r.occurred_from : Int) ≤ now) := by
  unfold recordSetCount
  rw [← List.countP_eq_length_filter]
  apply List.countP_congr
  intro r _
  simp only [Bool.and_eq_true, beq_iff_eq, decide_eq_true_eq]
  tauto

theorem recentCounts_foldl (records : List Record) (now : Int) :
    ∀ (sids : List Nat) (init : Counts),
      sids.foldl (recentCountsBody records now) init
        = { month := init.month
              + (sids.map fun sid => recordSetCount records sid now 30).sum,
            quarter := init.quarter
              + (sids.map fun sid => recordSetCount records sid now 90).sum,
            year := init.year
              + (sids.map fun sid => recordSetCount records sid now 365).sum } := by
  intro sids
  induction sids with
  | nil => intro init; cases init; simp
  | cons sid sids ih =>
    intro init
    cases init
    simp only [List.foldl_cons, ih, recentCountsBody, List.map_cons, List.sum_cons,
      Counts.mk.injEq]
    refine ⟨?_, ?_, ?_⟩ <;> omega

/-- Claim C1: createSchema assigns the version by looking up the
RecordSchema of the record type whose next_version is null: when such a
head exists the new version is head.version + 1 and the head gets its
next_version linked to the new row; with no head the version is 1.
Consequently N sequential creations from the empty store yield versions
1..N in a correctly linked chain ending in the sole head. -/
theorem C1_createSchema_versions :
    (∀ (st : SchemaStore) (rt : Nat) (doc : String) (head : RecordSchema),
      getHead st rt = .ok head →
      ∃ s st', createSchema st rt doc = .ok (s, st') ∧
        s.version = head.version + 1 ∧ s.next_version = none ∧
        { head with next_version := some s.id } ∈ st'.schemas) ∧
    (∀ (st : SchemaStore) (rt : Nat) (doc : String),
      getHead st rt = .error .doesNotExist →
      ∃ s st', createSchema st rt doc = .ok (s, st') ∧ s.version = 1 ∧
        s.next_version = none) ∧
    (∀ (rt : Nat) (doc : String) (n : Nat),
      (createN rt doc n).schemas.map
          (fun s => (s.id, s.record_type, s.version, s.next_version))
        = (List.range n).map
            (fun i => (i, rt, i + 1,
              if i + 1 = n then (none : Option Nat) else some (i + 1)))) := by
  refine ⟨?_, ?_, ?_⟩
  · intro st rt doc head hg
    have hcv : computeVersion st rt = .ok (head.version + 1) := by
      simp [computeVersion, hg]
    refine ⟨{ id := st.nextId, record_type := rt, version := head.version + 1,
              next_version := none, schema := doc },
            { schemas := st.schemas.map (linkHead rt st.nextId)
                ++ [{ id := st.nextId, record_type := rt,
                      version := head.version + 1, next_version := none,
                      schema := doc }],
              nextId := st.nextId + 1 },
            by simp [createSchema, hcv, saveNewSchema], rfl, rfl, ?_⟩
    have hfil := getHead_ok_filter st rt head hg
    have hmem : head ∈ st.schemas.filter (isHeadFor rt) := by
      rw [hfil]; exact List.mem_singleton.mpr rfl
    have hin : head ∈ st.schemas := List.mem_of_mem_filter hmem
    have hhead : isHeadFor rt head = true := List.of_mem_filter hmem
    simp only [List.mem_append]
    left
    have : linkHead rt st.nextId head = { head with next_version := some st.nextId } :=
      linkHead_of_head rt st.nextId head hhead
    exact this ▸ List.mem_map_of_mem _ hin
  · intro st rt doc hg
    have hcv : computeVersion st rt = .ok 1 := by
      simp [computeVersion, hg]
    exact ⟨{ id := st.nextId, record_type := rt, version := 1, next_version := none,
             schema := doc },
           { schemas := st.schemas.map (linkHead rt st.nextId)
               ++ [{ id := st.nextId, record_type := rt, version := 1,
                     next_version := none, schema := doc }],
             nextId := st.nextId + 1 },
           by simp [createSchema, hcv, saveNewSchema], rfl, rfl⟩
  · intro rt doc n
    rw [createN_eq rt doc n]
    simp only [chainForm, List.map_map]
    apply List.map_congr_left
    intro i hi
    rfl

theorem C1_createSchema_versions_witness :
    (∃ s st', createSchema raceStore 3 "b" = .ok (s, st') ∧
      s.version = 1 + 1 ∧ s.next_version = none ∧
      { id := 0, record_type := 3, version := 1, next_version := some s.id,
        schema := "a" } ∈ st'.schemas) ∧
    (∃ s st', createSchema emptyStore 3 "a" = .ok (s, st') ∧ s.version = 1 ∧
      s.next_version = none) :=
  ⟨C1_createSchema_versions.1 raceStore 3 "b"
      { id := 0, record_type := 3, version := 1, next_version := none, schema := "a" }
      rfl,
    C1_createSchema_versions.2.1 emptyStore 3 "a" rfl⟩

/-- Claim C2: after any sequence of schema-store interface operations from
the empty store, at most one RecordSchema per record type has
next_version null, and every successful createSchema preserves head
uniqueness from any state satisfying it. -/
theorem C2_head_uniqueness :
    (∀ ops : List SchemaOp, headUnique (applyOps emptyStore ops)) ∧
    (∀ (st : SchemaStore) (rt : Nat) (doc : String) (s : RecordSchema)
        (st' : SchemaStore), headUnique st →
      createSchema st rt doc = .ok (s, st') → headUnique st') :=
  ⟨fun ops => applyOps_preserves_headUnique ops emptyStore emptyStore_headUnique,
    fun st rt doc s st' hu h => createSchema_preserves_headUnique st rt doc s st' hu h⟩

theorem C2_head_uniqueness_witness :
    headUnique (applyOps emptyStore [SchemaOp.create 3 "a", SchemaOp.create 3 "b"]) ∧
    headUnique
      { schemas := [{ id := 0, record_type := 3, version := 1, next_version := some 1,
                      schema := "a" },
                    { id := 1, record_type := 3, version := 2, next_version := none,
                      schema := "b" }],
        nextId := 2 } := by
  refine ⟨C2_head_uniqueness.1 [SchemaOp.create 3 "a", SchemaOp.create 3 "b"], ?_⟩
  refine C2_head_uniqueness.2 raceStore 3 "b"
    { id := 1, record_type := 3, version := 2, next_version := none, schema := "b" }
    _ ?_ rfl
  intro rt
  have := List.length_filter_le (isHeadFor rt) raceStore.schemas
  simpa [raceStore] using this

/-- Claim C5: creating a Boundary whose label already exists answers the
distinguishable 409 conflict body and leaves the stored table unchanged,
while a label not yet present is created normally, appending one row. -/
theorem C5_boundary_conflict :
    (∀ (st : BoundaryStore) (label : String),
      (∃ b ∈ st.boundaries, b.label = label) →
      boundaryCreate st label
        = (.failure "uniqueness constraint violation" 409, st)) ∧
    (∀ (st : BoundaryStore) (label : String),
      (∀ b ∈ st.boundaries, b.label ≠ label) →
      boundaryCreate st label
        = (.created { id := st.nextId, label := label } 201,
           { boundaries := st.boundaries ++ [{ id := st.nextId, label := label }],
             nextId := st.nextId + 1 })) := by
  constructor
  · rintro st label ⟨b, hb, hl⟩
    have hany : st.boundaries.any (fun b => b.label == label) = true :=
      List.any_eq_true.mpr ⟨b, hb, by simp [hl]⟩
    simp [boundaryCreate, insertBoundary, hany]
  · intro st label h
    have hany : st.boundaries.any (fun b => b.label == label) = false := by
      rw [List.any_eq_false]
      intro b hb
      simpa using h b hb
    simp [boundaryCreate, insertBoundary, hany]

theorem C5_boundary_conflict_witness :
    boundaryCreate { boundaries := [{ id := 0, label := "dup" }], nextId := 1 } "dup"
      = (.failure "uniqueness constraint violation" 409,
         { boundaries := [{ id := 0, label := "dup" }], nextId := 1 }) ∧
    boundaryCreate { boundaries := [{ id := 0, label := "dup" }], nextId := 1 } "new"
      = (.created { id := 1, label := "new" } 201,
         { boundaries := [{ id := 0, label := "dup" }, { id := 1, label := "new" }],
           nextId := 2 }) :=
  ⟨C5_boundary_conflict.1 _ "dup" ⟨{ id := 0, label := "dup" },
      List.mem_singleton.mpr rfl, rfl⟩,
    C5_boundary_conflict.2 _ "new" (by decide)⟩

/-- Claim C6: with the query diagnostic parameter set, list answers the
mogrified text of the composed query, leaves the stored records
untouched, and does not depend on the execution collaborator (the
composed query is never run); without the flag it answers executed
results, never the query text, again leaving storage unchanged. -/
theorem C6_raw_query_flag :
    ∀ (backends : List (HttpRequest → RecordQuery → RecordQuery))
      (exec1 exec2 : RecordQuery → List Record) (req : HttpRequest)
      (baseQuery : RecordQuery) (stored : List Record),
    (hasParam req "query" = true →
      recordList backends exec1 req baseQuery stored
        = (.queryText (mogrify (composeQuery backends req baseQuery)), stored) ∧
      recordList backends exec1 req baseQuery stored
        = recordList backends exec2 req baseQuery stored) ∧
    (hasParam req "query" = false →
      recordList backends exec1 req baseQuery stored
        = (.results (exec1 (composeQuery backends req baseQuery)), stored) ∧
      ∀ qtext, (recordList backends exec1 req baseQuery stored).1
        ≠ .queryText qtext) := by
  intro backends exec1 exec2 req baseQuery stored
  constructor
  · intro h
    constructor <;> simp [recordList, h]
  · intro h
    constructor
    · simp [recordList, h]
    · intro qtext
      simp [recordList, h]

theorem C6_raw_query_flag_witness :
    (recordList [] (fun _ => []) { params := [("query", "true")] }
        { sql := "q", params := [] } []
      = (.queryText (mogrify (composeQuery [] { params := [("query", "true")] }
          { sql := "q", params := [] })), []) ∧
     recordList [] (fun _ => []) { params := [("query", "true")] }
        { sql := "q", params := [] } []
      = recordList [] (fun _ => [{ id := 0, schemaId := 0, occurred_from := 0 }])
          { params := [("query", "true")] } { sql := "q", params := [] } []) :=
  (C6_raw_query_flag [] (fun _ => [])
    (fun _ => [{ id := 0, schemaId := 0, occurred_from := 0 }])
    { params := [("query", "true")] } { sql := "q", params := [] } []).1 rfl

/-- Claim C7 fails on the code: nothing in the source serializes
concurrent createSchema calls, so the read-read-write-write interleaving
of two calls on a one-schema store is reachable; there both calls compute
version 2 and the table ends with duplicate version numbers. -/
theorem C7_concurrent_createSchema_race :
    interleavedCreate raceStore 3 "b" "c"
      = .ok (2, 2,
        { schemas :=
            [{ id := 0, record_type := 3, version := 1, next_version := some 1,
               schema := "a" },
             { id := 1, record_type := 3, version := 2, next_version := some 2,
               schema := "b" },
             { id := 2, record_type := 3, version := 2, next_version := none,
               schema := "c" }],
          nextId := 3 }) ∧
    ¬ (([1, 2, 2] : List Nat).Nodup) := by
  exact ⟨rfl, by decide⟩

/-- Claim C8: the schema-store interface is only list, create and
retrieve (the constructors of SchemaOp); under any sequence of these
operations an existing schema row is never removed, and its id, record
type, version and schema document are never changed. -/
theorem C8_schema_immutability :
    ∀ (ops : List SchemaOp) (st : SchemaStore) (s : RecordSchema),
      s ∈ st.schemas →
      ∃ s', s' ∈ (applyOps st ops).schemas ∧ s'.id = s.id ∧
        s'.record_type = s.record_type ∧ s'.version = s.version ∧
        s'.schema = s.schema :=
  fun ops => applyOps_preserves_row ops

theorem C8_schema_immutability_witness :
    ∃ s', s' ∈ (applyOps raceStore [SchemaOp.create 3 "b"]).schemas ∧
      s'.id = 0 ∧ s'.record_type = 3 ∧ s'.version = 1 ∧ s'.schema = "a" :=
  C8_schema_immutability [SchemaOp.create 3 "b"] raceStore
    { id := 0, record_type := 3, version := 1, next_version := none, schema := "a" }
    (List.mem_singleton.mpr rfl)

/-- Claim C9: recent_counts invoked with a pk matching no RecordType
fails with the typed DoesNotExist error of the uncaught lookup, a
not-found-class error distinct from every other outcome. -/
theorem C9_recent_counts_notFound :
    ∀ (rts : List RecordTypeRow) (records : List Record) (pk : Nat) (now : Int),
      (∀ rt ∈ rts, rt.id ≠ pk) →
      recentCountsView rts records pk now = .error .doesNotExist := by
  intro rts records pk now h
  have hfil : rts.filter (fun rt => rt.id == pk) = [] := by
    rw [List.filter_eq_nil_iff]
    intro rt hrt
    simpa using h rt hrt
  simp [recentCountsView, recordTypeGet, hfil]

theorem C9_recent_counts_notFound_witness :
    recentCountsView [{ id := 1, schemas := [0] }] [] 2 1000
      = .error .doesNotExist :=
  C9_recent_counts_notFound [{ id := 1, schemas := [0] }] [] 2 1000 (by decide)

/-- Claim C3: toddow applies the filters and then: its groups are exactly
the distinct observed (hour, day-of-week) pairs of the remaining records
— zero-count combinations are omitted; each group carries an hour 0..23
and a day 1..7 with a positive count equal to the number of remaining
records at that pair; and the groups are ordered by tod ascending then
dow ascending, with no duplicate group. -/
theorem C3_toddow_groups :
    ∀ (backends : List (Record → Bool)) (qryset : List Record),
      (∀ h d : Nat,
        ((some h, some d) : Option Nat × Option Nat) ∈
            (toddow backends qryset).map (fun g => (g.tod, g.dow)) ↔
          ∃ r ∈ applyRecordFilters backends qryset,
            hourOf r.occurred_from = h ∧ weekDayOf r.occurred_from = d) ∧
      (∀ g ∈ toddow backends qryset,
        ∃ h d : Nat, g.tod = some h ∧ g.dow = some d ∧ h ≤ 23 ∧ 1 ≤ d ∧ d ≤ 7 ∧
          0 < g.count ∧
          g.count = (applyRecordFilters backends qryset).countP
            (fun r => hourOf r.occurred_from == h
              && weekDayOf r.occurred_from == d)) ∧
      ((toddow backends qryset).map (fun g => (g.tod, g.dow))).Sorted keyLe ∧
      ((toddow backends qryset).map (fun g => (g.tod, g.dow))).Nodup := by
  intro backends qryset
  refine ⟨?_, ?_, ?_, ?_⟩
  · intro h d
    rw [toddow_map_key]
    unfold toddowGroups
    rw [(List.perm_insertionSort keyLe _).mem_iff, List.mem_dedup, List.mem_map]
    constructor
    · rintro ⟨r, hr, hkey⟩
      rw [toddowKey_eq] at hkey
      simp only [Prod.mk.injEq, Option.some.injEq] at hkey
      exact ⟨r, hr, hkey.1, hkey.2⟩
    · rintro ⟨r, hr, h1, h2⟩
      exact ⟨r, hr, by rw [toddowKey_eq, h1, h2]⟩
  · intro g hg
    unfold toddow at hg
    rcases List.mem_map.mp hg with ⟨k, hk, rfl⟩
    have hkdedup : k ∈ ((applyRecordFilters backends qryset).map toddowKey).dedup :=
      (List.perm_insertionSort keyLe _).mem_iff.mp hk
    have hkmem : k ∈ (applyRecordFilters backends qryset).map toddowKey :=
      List.mem_dedup.mp hkdedup
    rcases List.mem_map.mp hkmem with ⟨r, hr, hkey⟩
    subst hkey
    refine ⟨hourOf r.occurred_from, weekDayOf r.occurred_from,
      by rw [toddowKey_eq], by rw [toddowKey_eq], ?_, weekDayOf_ge_one _,
      weekDayOf_le_seven _, ?_, ?_⟩
    · have := hourOf_lt r.occurred_from
      omega
    · rw [toddowCount_count backends qryset _ (by rw [toddowKey_eq]; rfl)]
      exact List.count_pos_iff.mpr (List.mem_map_of_mem toddowKey hr)
    · rw [toddowCount_count backends qryset _ (by rw [toddowKey_eq]; rfl),
        count_map_toddowKey]
      apply List.countP_congr
      intro r2 _
      simp [toddowKey_eq]
  · rw [toddow_map_key]
    exact List.sorted_insertionSort keyLe _
  · rw [toddow_map_key]
    exact (List.perm_insertionSort keyLe _).nodup_iff.mpr (List.nodup_dedup _)

theorem C3_toddow_groups_witness :
    ∃ h d : Nat,
      ({ tod := some 0, dow := some 2, count := 2 } : ToddowRow).tod = some h ∧
      ({ tod := some 0, dow := some 2, count := 2 } : ToddowRow).dow = some d ∧
      h ≤ 23 ∧ 1 ≤ d ∧ d ≤ 7 ∧
      0 < ({ tod := some 0, dow := some 2, count := 2 } : ToddowRow).count ∧
      ({ tod := some 0, dow := some 2, count := 2 } : ToddowRow).count
        = (applyRecordFilters []
            [{ id := 0, schemaId := 0, occurred_from := 86400 },
             { id := 1, schemaId := 0, occurred_from := 86400 },
             { id := 2, schemaId := 0, occurred_from := 392400 }]).countP
            (fun r => hourOf r.occurred_from == h
              && weekDayOf r.occurred_from == d) :=
  (C3_toddow_groups []
      [{ id := 0, schemaId := 0, occurred_from := 86400 },
       { id := 1, schemaId := 0, occurred_from := 86400 },
       { id := 2, schemaId := 0, occurred_from := 392400 }]).2.1
    { tod := some 0, dow := some 2, count := 2 } (by decide)

/-- Claim C4: recent_counts answers the month, quarter and year totals,
where each window value (30, 90 and 365 days ending at now) is the sum
over every schema version ever issued for the record type of the count of
that version's records with occurred_from in the closed interval
[now - window, now]; records bound to older schema versions are included
through their own summand. -/
theorem C4_recentCounts_sums :
    ∀ (rt : RecordTypeRow) (records : List Record) (now : Int),
      recentCounts rt records now
        = { month := (rt.schemas.map fun sid => records.countP fun r =>
              decide (r.schemaId = sid
                ∧ now - 30 * 86400 ≤ (r.occurred_from : Int)
                ∧ (r.occurred_from : Int) ≤ now)).sum,
            quarter := (rt.schemas.map fun sid => records.countP fun r =>
              decide (r.schemaId = sid
                ∧ now - 90 * 86400 ≤ (r.occurred_from : Int)
                ∧ (r.occurred_from : Int) ≤ now)).sum,
            year := (rt.schemas.map fun sid => records.countP fun r =>
              decide (r.schemaId = sid
                ∧ now - 365 * 86400 ≤ (r.occurred_from : Int)
                ∧ (r.occurred_from : Int) ≤ now)).sum } := by
  intro rt records now
  unfold recentCounts
  rw [recentCounts_foldl]
  simp [recordSetCount_eq]

/-- Claim C10: on a create action whose submitted data carries a
record_type, get_serializer overwrites any client-supplied version with
the computed value, head.version + 1 or 1 when the type has no head; for
any other action, or create data without a record_type, the arguments
pass through unchanged with no version injected. -/
theorem C10_version_injection :
    (∀ (st : SchemaStore) (d : SchemaPayload) (rt : Nat) (head : RecordSchema),
      d.record_type = some rt → getHead st rt = .ok head →
      get_serializer st "create" { data := some d }
        = .ok { data := some { d with version := some (head.version + 1) } }) ∧
    (∀ (st : SchemaStore) (d : SchemaPayload) (rt : Nat),
      d.record_type = some rt → getHead st rt = .error .doesNotExist →
      get_serializer st "create" { data := some d }
        = .ok { data := some { d with version := some 1 } }) ∧
    (∀ (st : SchemaStore) (action : String) (kwargs : SerializerKwargs),
      action ≠ "create" → get_serializer st action kwargs = .ok kwargs) ∧
    (∀ st : SchemaStore,
      get_serializer st "create" { data := none } = .ok { data := none }) ∧
    (∀ (st : SchemaStore) (d : SchemaPayload), d.record_type = none →
      get_serializer st "create" { data := some d } = .ok { data := some d }) := by
  refine ⟨?_, ?_, ?_, ?_, ?_⟩
  · intro st d rt head hrt hg
    simp [get_serializer, hrt, computeVersion, hg]
  · intro st d rt hrt hg
    simp [get_serializer, hrt, computeVersion, hg]
  · intro st action kwargs h
    unfold get_serializer
    rw [if_neg (by simpa using h)]
  · intro st
    simp [get_serializer]
  · intro st d hrt
    simp [get_serializer, hrt]

theorem C10_version_injection_witness :
    (get_serializer raceStore "create"
        { data := some { record_type := some 3, version := some 99, schema := "x" } }
      = .ok { data := some { record_type := some 3, version := some 2, schema := "x" } }) ∧
    (get_serializer emptyStore "create"
        { data := some { record_type := some 3, version := some 99, schema := "x" } }
      = .ok { data := some { record_type := some 3, version := some 1, schema := "x" } }) ∧
    (get_serializer raceStore "list"
        { data := some { record_type := some 3, version := some 99, schema := "x" } }
      = .ok { data := some { record_type := some 3, version := some 99, schema := "x" } }) ∧
    (get_serializer raceStore "create"
        { data := some { record_type := none, version := some 99, schema := "x" } }
      = .ok { data := some { record_type := none, version := some 99, schema := "x" } }) :=
  ⟨C10_version_injection.1 raceStore
      { record_type := some 3, version := some 99, schema := "x" } 3
      { id := 0, record_type := 3, version := 1, next_version := none, schema := "a" }
      rfl rfl,
    C10_version_injection.2.1 emptyStore
      { record_type := some 3, version := some 99, schema := "x" } 3 rfl rfl,
    C10_version_injection.2.2.1 raceStore "list" _ (by decide),
    C10_version_injection.2.2.2.2 raceStore
      { record_type := none, version := some 99, schema := "x" } rfl⟩


end Ashlar
